import Mathlib

/-!
Verification of the listing-analysis request pipeline of the CarDealScout
repository (`src/services/geminiService.ts` together with the error display in
`src/App.tsx`).  The pipeline is shallowly embedded: host primitives (the
generative-model call, `fetch`, `JSON.parse` applied to the cleaned text) are
oracles supplied by an `Env`; every line of repository logic (fence stripping,
the VIN gate, the enrichment merge, the retry-on-429 wrapper, the user-facing
error message) is translated directly from the source.
-/


/-! ## JavaScript string primitives used by the pipeline
`text.replace(/```json\n?/, "").replace(/```\n?/, "").trim()`
(geminiService.ts line 92) removes the *first* occurrence of each pattern
together with one optional following newline, then trims whitespace.
-/
/-- ASCII whitespace recognised by the model of `String.prototype.trim`
(the common subset actually exercised by the pipeline). -/
def isJsWs (c : Char) : Bool := c == ' ' || c == '\n' || c == '\t' || c == '\r'

/-- Model of `String.prototype.trim` on character lists. -/
def trimChars (s : List Char) : List Char :=
  ((s.dropWhile isJsWs).reverse.dropWhile isJsWs).reverse

/-- Drop a single leading newline, if present (the `\n?` of the regex). -/
def dropNl : List Char → List Char
  | [] => []
  | c :: cs => if c = '\n' then cs else c :: cs

/-- Model of `String.prototype.replace(pat + optional newline, "")` with a
non-global pattern: remove the leftmost occurrence of `pat` (plus one
following newline) and leave the rest unchanged; no occurrence leaves the
string unchanged. -/
def stripOnce (pat : List Char) : List Char → List Char
  | [] => []
  | c :: cs =>
    if pat.isPrefixOf (c :: cs) then dropNl (List.drop pat.length (c :: cs))
    else c :: stripOnce pat cs

/-- Whether `pat` occurs as a contiguous substring. -/
def containsSub (pat : List Char) : List Char → Bool
  | [] => pat.isPrefixOf ([] : List Char)
  | c :: cs => pat.isPrefixOf (c :: cs) || containsSub pat cs

/-- Model of JavaScript `String.prototype.includes`. -/
def includes (s pat : String) : Bool := containsSub pat.data s.data

/-- The markdown fence marker. -/
def fenceTick : List Char := "```".data

/-- The tagged opening fence marker matched first by the code. -/
def fenceJson : List Char := "```json".data

/-- The backtick character. -/
def tickChar : Char := "`".data.headD 'A'

/-- geminiService.ts line 92:
`text.replace(/```json\n?/, "").replace(/```\n?/, "").trim()`. -/
def cleanText (s : String) : String :=
  ⟨trimChars (stripOnce fenceTick (stripOnce fenceJson s.data))⟩

/-! ## A concrete model of `JSON.parse`
The pipeline hands the cleaned text to the host's `JSON.parse`.  For the
claims about fence stripping we model the relevant JSON fragment (objects,
arrays, strings with simple escapes, integers, booleans, null) with an
executable complete-input parser: a trailing non-whitespace remainder is a
parse failure, exactly as in ECMAScript `JSON.parse`. -/
inductive Json where
  | null
  | jbool (b : Bool)
  | jnum (n : Int)
  | jstr (s : String)
  | jarr (elems : List Json)
  | jobj (members : List (String × Json))

/-- Opening brace character (written via its code point). -/
def lbrace : Char := Char.ofNat 123

/-- Closing brace character (written via its code point). -/
def rbrace : Char := Char.ofNat 125

/-- Skip JSON whitespace. -/
def skipWs (s : List Char) : List Char := s.dropWhile isJsWs

/-- JSON string escape characters (the simple one-character escapes). -/
def escapeChar (c : Char) : Option Char :=
  if c = '"' then some '"'
  else if c = '\\' then some '\\'
  else if c = '/' then some '/'
  else if c = 'n' then some '\n'
  else if c = 't' then some '\t'
  else if c = 'r' then some '\r'
  else if c = 'b' then some (Char.ofNat 8)
  else if c = 'f' then some (Char.ofNat 12)
  else none

/-- Parse the body of a JSON string after the opening quote; returns the
decoded characters and the remainder after the closing quote. -/
def parseStrBody : Nat → List Char → Option (List Char × List Char)
  | 0, _ => none
  | _ + 1, [] => none
  | f + 1, c :: cs =>
    if c = '"' then some ([], cs)
    else if c = '\\' then
      match cs with
      | [] => none
      | e :: cs2 =>
        match escapeChar e with
        | none => none
        | some d =>
          match parseStrBody f cs2 with
          | none => none
          | some (body, rest) => some (d :: body, rest)
    else
      match parseStrBody f cs with
      | none => none
      | some (body, rest) => some (c :: body, rest)

/-- Accumulate the value of a digit run. -/
def digitsVal (acc : Nat) : List Char → Nat
  | [] => acc
  | c :: cs => digitsVal (acc * 10 + (c.toNat - 48)) cs

mutual

/-- Parse one JSON value (integer numerals; no fraction/exponent, which the
pipeline's claims never exercise). -/
def parseValue : Nat → List Char → Option (Json × List Char)
  | 0, _ => none
  | f + 1, input =>
    match skipWs input with
    | [] => none
    | c :: cs =>
      if c = '"' then
        match parseStrBody f cs with
        | some (body, rest) => some (Json.jstr ⟨body⟩, rest)
        | none => none
      else if c = lbrace then
        match skipWs cs with
        | d :: ds =>
          if d = rbrace then some (Json.jobj [], ds)
          else
            match parseMembers f (d :: ds) with
            | some (ms, rest) => some (Json.jobj ms, rest)
            | none => none
        | [] => none
      else if c = '[' then
        match skipWs cs with
        | d :: ds =>
          if d = ']' then some (Json.jarr [], ds)
          else
            match parseElems f (d :: ds) with
            | some (vs, rest) => some (Json.jarr vs, rest)
            | none => none
        | [] => none
      else if c = 't' then
        if ['r', 'u', 'e'].isPrefixOf cs then some (Json.jbool true, cs.drop 3) else none
      else if c = 'f' then
        if ['a', 'l', 's', 'e'].isPrefixOf cs then some (Json.jbool false, cs.drop 4) else none
      else if c = 'n' then
        if ['u', 'l', 'l'].isPrefixOf cs then some (Json.null, cs.drop 3) else none
      else if c = '-' then
        let digits := cs.takeWhile Char.isDigit
        if digits.isEmpty then none
        else some (Json.jnum (-(digitsVal 0 digits : Nat)), cs.dropWhile Char.isDigit)
      else if c.isDigit then
        let digits := (c :: cs).takeWhile Char.isDigit
        some (Json.jnum (digitsVal 0 digits : Nat), (c :: cs).dropWhile Char.isDigit)
      else none

/-- Parse the elements of a non-empty JSON array, positioned at the first
element; consumes the closing bracket. -/
def parseElems : Nat → List Char → Option (List Json × List Char)
  | 0, _ => none
  | f + 1, input =>
    match parseValue f input with
    | none => none
    | some (v, rest) =>
      match skipWs rest with
      | [] => none
      | c :: cs =>
        if c = ',' then
          match parseElems f cs with
          | some (vs, r2) => some (v :: vs, r2)
          | none => none
        else if c = ']' then some ([v], cs)
        else none

/-- Parse the members of a non-empty JSON object, positioned at the first
key; consumes the closing brace. -/
def parseMembers : Nat → List Char → Option (List (String × Json) × List Char)
  | 0, _ => none
  | f + 1, input =>
    match skipWs input with
    | [] => none
    | c :: cs =>
      if c = '"' then
        match parseStrBody f cs with
        | none => none
        | some (key, r1) =>
          match skipWs r1 with
          | [] => none
          | d :: ds =>
            if d = ':' then
              match parseValue f ds with
              | none => none
              | some (v, r2) =>
                match skipWs r2 with
                | [] => none
                | e :: es =>
                  if e = ',' then
                    match parseMembers f es with
                    | some (ms, r3) => some ((⟨key⟩, v) :: ms, r3)
                    | none => none
                  else if e = rbrace then some ([(⟨key⟩, v)], es)
                  else none
            else none
      else none

end

/-- Model of `JSON.parse`: parse one value and require only whitespace to
remain. -/
def jsonParseStr (s : String) : Option Json :=
  match parseValue (2 * s.data.length + 16) s.data with
  | some (v, rest) => if skipWs rest = [] then some v else none
  | none => none

/-! ## Data model (geminiService.ts lines 5-37) -/
/-- `marketComparison` field of `CarAnalysis`. -/
structure MarketComparison where
  averagePrice : Int
  lowPrice : Int
  highPrice : Int
  similarCarsCount : Int
deriving DecidableEq

/-- A record of the recall-lookup service's `results` list (fields read by
the UI: `NHTSACampaignNumber`, `Summary`). -/
structure Recall where
  NHTSACampaignNumber : String
  Summary : String
deriving DecidableEq

/-- `vinData` field of `CarAnalysis`: the model may supply
`accidentHistory`/`titleStatus`; enrichment writes the factory fields and
`recalls`.  Absent JS properties are `none`. -/
structure VinData where
  manufacturer : Option String := none
  plantCountry : Option String := none
  bodyClass : Option String := none
  engineHP : Option String := none
  fuelType : Option String := none
  recalls : Option (List Recall) := none
  accidentHistory : Option String := none
  titleStatus : Option String := none
deriving DecidableEq

/-- The `CarAnalysis` interface (geminiService.ts lines 5-37).  `dealRating`
is a string (the cast from `JSON.parse` performs no validation of the
union type). -/
structure CarAnalysis where
  make : String
  model : String
  year : Int
  price : Int
  mileage : Int
  location : String
  condition : String
  dealRating : String
  dealScore : Int
  summary : String
  redFlags : List String
  pros : List String
  cons : List String
  marketComparison : MarketComparison
  negotiationPitch : String
  vin : Option String := none
  vinData : Option VinData := none
deriving DecidableEq

/-- A JavaScript error as observed by the pipeline: only its (possibly
absent) `message` is read, via optional chaining. -/
structure JsError where
  message : Option String
deriving DecidableEq

/-- `error.message?.includes("429")` (geminiService.ts line 127): an absent
message is falsy under optional chaining. -/
def rateLimited (e : JsError) : Bool :=
  match e.message with
  | some m => includes m "429"
  | none => false

/-- The request handed to `ai.models.generateContent`
(geminiService.ts lines 42-86). -/
structure GenRequest where
  model : String
  contents : String
  urlContextTool : Bool
  googleSearchTool : Bool
deriving DecidableEq

/-- The prompt template literal (geminiService.ts lines 44-82). -/
def promptFor (url : String) : String :=
  "Analyze this car listing URL: " ++ url ++ ". \n        Extract the key details and provide a comprehensive deal analysis in JSON format. \n        If you cannot find specific data, estimate based on the model and year.\n        VERY IMPORTANT: Look for a VIN (Vehicle Identification Number) in the text or attributes.\n        If a VIN is found, use Google Search to check for public records, auction history (like Copart or IAAI), and any reported accidents or title issues (salvage, rebuilt, flood damage).\n        Identify any red flags in the description (e.g., title issues, mechanical warnings, suspicious wording).\n        Compare the price to typical market values for this specific year, make, and model.\n        Finally, generate a \"Negotiation Pitch\": This MUST be a detailed, persuasive script or step-by-step strategy (at least 2-3 paragraphs or bullet points). \n        The pitch should tell the buyer exactly what to say to the seller, specifically leveraging the identified cons, red flags, and market data to justify a lower price. \n        Do not leave this field empty.\n        \n        Return ONLY a JSON object with these keys:\n        \x7b\n          \"make\": string,\n          \"model\": string,\n          \"year\": number,\n          \"price\": number,\n          \"mileage\": number,\n          \"location\": string,\n          \"condition\": string,\n          \"vin\": string (17 chars if found),\n          \"dealRating\": \"Great\" | \"Good\" | \"Fair\" | \"Poor\" | \"Suspicious\",\n          \"dealScore\": number (0-100),\n          \"summary\": string,\n          \"redFlags\": string[],\n          \"pros\": string[],\n          \"cons\": string[],\n          \"marketComparison\": \x7b\n            \"averagePrice\": number,\n            \"lowPrice\": number,\n            \"highPrice\": number,\n            \"similarCarsCount\": number\n          \x7d,\n          \"negotiationPitch\": string,\n          \"vinData\": \x7b\n            \"accidentHistory\": string (Summary of any accidents found via search),\n            \"titleStatus\": string (e.g., Clean, Salvage, Rebuilt, Unknown)\n          \x7d\n        \x7d"

/-- The (identical, url-determined) request sent on every attempt. -/
def genRequest (url : String) : GenRequest :=
  { model := "gemini-2.5-flash"
    contents := promptFor url
    urlContextTool := true
    googleSearchTool := true }

/-- The first element of the VIN decode service's `Results` list, with the
five fields the pipeline reads (absent JS fields are `none`).  A network
failure, a JSON failure, or a missing first element is an `Except.error`
in the environment. -/
structure DecodeResult where
  Manufacturer : Option String := none
  PlantCountry : Option String := none
  BodyClass : Option String := none
  EngineHP : Option String := none
  FuelTypePrimary : Option String := none
deriving DecidableEq

/-- Observable actions of one `analyzeCarListing` run. -/
inductive Event where
  | modelInvoke (request : GenRequest)
  | waitMs (ms : Nat)
  | consoleLog (msg : String)
  | consoleError (tag : String) (e : JsError)
  | vinDecodeFetch (vin : String)
  | recallFetch (make model : String) (year : Int)
deriving DecidableEq

/-- The outside world: host primitives invoked by the pipeline.  The model
call is indexed by the attempt number so that first and second attempts may
fail differently; `jsonParse` is the host `JSON.parse` (applied to the
cleaned text) together with the unchecked cast to `CarAnalysis`. -/
structure Env where
  modelCall : GenRequest → Nat → Except JsError (Option String)
  jsonParse : String → Except JsError CarAnalysis
  vinDecode : String → Except JsError DecodeResult
  recallLookup : String → String → Int → Except JsError (Option (List Recall))

/-- The spread-merge of the decode fields into the existing `vinData`
(geminiService.ts lines 106-113):
`analysis.vinData = { ...analysis.vinData, manufacturer: ..., ... }`. -/
def mergeDecode (vd : VinData) (d : DecodeResult) : VinData :=
  { vd with
    manufacturer := d.Manufacturer
    plantCountry := d.PlantCountry
    bodyClass := d.BodyClass
    engineHP := d.EngineHP
    fuelType := d.FuelTypePrimary }

/-- The enrichment section (geminiService.ts lines 96-122): gate on a
truthy, 17-character `vin`; decode fetch; merge; recall fetch; on any
thrown error inside the inner `try`, log and keep the record as it then
stands.  Returns the record and the emitted events. -/
def enrichStep (env : Env) (a : CarAnalysis) : CarAnalysis × List Event :=
  match a.vin with
  | none => (a, [])
  | some v =>
    if !(v == "") && v.length == 17 then
      match env.vinDecode v with
      | .error e =>
        (a, [.vinDecodeFetch v, .consoleError "Error fetching VIN data:" e])
      | .ok data =>
        let vd1 := mergeDecode (a.vinData.getD {}) data
        let a1 := { a with vinData := some vd1 }
        match env.recallLookup a.make a.model a.year with
        | .error e =>
          (a1, [.vinDecodeFetch v, .recallFetch a.make a.model a.year,
                .consoleError "Error fetching VIN data:" e])
        | .ok results =>
          ({ a1 with vinData := some { vd1 with recalls := some (results.getD []) } },
           [.vinDecodeFetch v, .recallFetch a.make a.model a.year])
    else (a, [])

/-- One body of the `try` block (geminiService.ts lines 41-124): model call,
empty-text check, fence stripping, parse, enrichment.  Any failure before
enrichment is an error result; enrichment failures are absorbed inside
`enrichStep`. -/
def attempt (env : Env) (url : String) (attemptIdx : Nat) :
    Except JsError CarAnalysis × List Event :=
  let req := genRequest url
  match env.modelCall req attemptIdx with
  | .error e => (.error e, [.modelInvoke req])
  | .ok none => (.error { message := some "No response from AI" }, [.modelInvoke req])
  | .ok (some t) =>
    if t == "" then (.error { message := some "No response from AI" }, [.modelInvoke req])
    else
      match env.jsonParse (cleanText t) with
      | .error e => (.error e, [.modelInvoke req])
      | .ok analysis =>
        let (a2, evs) := enrichStep env analysis
        (.ok a2, .modelInvoke req :: evs)

/-- The retry log line and the `setTimeout(..., 2000)` suspension
(geminiService.ts lines 128-129). -/
def retryEvents : List Event :=
  [.consoleLog "Rate limit hit, retrying in 2 seconds...", .waitMs 2000]

/-- Structural engine for the retry closure.  The recursion of
`makeRequest` is guarded by `retryCount < 1`, so at most `1 - retryCount`
recursive calls occur; `budget` carries exactly that bound, making the
recursion structural.  `makeRequest_eq` below certifies that the code's own
recursive equation holds. -/
def makeRequestAux (env : Env) (url : String) :
    Nat → Nat → Except JsError CarAnalysis × List Event
  | 0, retryCount => attempt env url retryCount
  | b + 1, retryCount =>
    match attempt env url retryCount with
    | (.ok a, evs) => (.ok a, evs)
    | (.error e, evs) =>
      if rateLimited e = true ∧ retryCount < 1 then
        let (r, evs2) := makeRequestAux env url b (retryCount + 1)
        (r, evs ++ retryEvents ++ evs2)
      else (.error e, evs)

/-- The local `makeRequest` closure (geminiService.ts lines 40-134). -/
def makeRequest (env : Env) (url : String) (retryCount : Nat) :
    Except JsError CarAnalysis × List Event :=
  makeRequestAux env url (1 - retryCount) retryCount

/-- `analyzeCarListing` (geminiService.ts line 136): run the closure with
`retryCount = 0`. -/
def analyzeCarListing (env : Env) (url : String) :
    Except JsError CarAnalysis × List Event :=
  makeRequest env url 0

/-! ## The error display of `App.tsx` (`handleAnalyze`, lines 130-143) -/
/-- The dedicated rate-limit message shown by `handleAnalyze`. -/
def rateLimitUserMessage : String :=
  "API Rate Limit Reached. Please wait about 60 seconds and try again. The free tier has strict limits on how many cars you can analyze per minute."

/-- The fallback of `err.message || \"Something went wrong...\"`. -/
def genericUserMessage : String := "Something went wrong. Please try again."

/-- `err.message?.includes(pat)` as used by `handleAnalyze`. -/
def msgIncludes (e : JsError) (pat : String) : Bool :=
  match e.message with
  | some m => includes m pat
  | none => false

/-- The message `setError` receives in `handleAnalyze` (App.tsx lines
134-139): rate-limit wording for messages containing "429" or "quota",
otherwise the raw `err.message` with a generic fallback only when the
message is absent or empty (JS `||`). -/
def displayedError (e : JsError) : String :=
  if msgIncludes e "429" || msgIncludes e "quota" then rateLimitUserMessage
  else
    match e.message with
    | some m => if m == "" then genericUserMessage else m
    | none => genericUserMessage

/-! ## Observations used by the claims -/
/-- Recognise a model-service invocation event. -/
def isModelInvoke : Event → Bool
  | .modelInvoke _ => true
  | _ => false

/-- Number of model-service invocations in a run's event list. -/
def countModelInvokes (evs : List Event) : Nat := (evs.filter isModelInvoke).length

/-- Recognise an enrichment network call (either sub-call). -/
def isEnrichFetch : Event → Bool
  | .vinDecodeFetch _ => true
  | .recallFetch _ _ _ => true
  | _ => false

/-- Recognise the recall-lookup network call. -/
def isRecallFetch : Event → Bool
  | .recallFetch _ _ _ => true
  | _ => false

/-- Environment in which every model call fails with a 429 message. -/
def envC1 : Env :=
  { modelCall := fun _ _ => .error { message := some "Error: 429 Too Many Requests" }
    jsonParse := fun _ => .error { message := none }
    vinDecode := fun _ => .error { message := none }
    recallLookup := fun _ _ _ => .error { message := none } }

/-- Environment whose model call fails with a non-rate-limit error. -/
def envC7 : Env :=
  { modelCall := fun _ _ => .error { message := some "Network unreachable" }
    jsonParse := fun _ => .error { message := none }
    vinDecode := fun _ => .error { message := none }
    recallLookup := fun _ _ _ => .error { message := none } }

/-- Recognise a console log/error event. -/
def isConsoleEvent : Event → Bool
  | .consoleLog _ => true
  | .consoleError _ _ => true
  | _ => false

/-- Market-comparison block of the concrete example record. -/
def mcExample : MarketComparison :=
  { averagePrice := 20000, lowPrice := 17000, highPrice := 23000, similarCarsCount := 12 }

/-- A concrete parsed analysis record with a 17-character VIN and
model-supplied `accidentHistory`/`titleStatus`. -/
def baseAnalysis : CarAnalysis :=
  { make := "Honda", model := "Accord", year := 2003, price := 4500, mileage := 150000
    location := "Austin, TX", condition := "Used", dealRating := "Good", dealScore := 72
    summary := "A solid deal.", redFlags := [], pros := ["Reliable"], cons := ["High mileage"]
    marketComparison := mcExample, negotiationPitch := "Offer less."
    vin := some "1HGCM82633A004352"
    vinData := some { accidentHistory := some "None found", titleStatus := some "Clean" } }

/-- First concrete recall record. -/
def recallA : Recall := { NHTSACampaignNumber := "03V030000", Summary := "Seat belt anchor" }

/-- Second concrete recall record. -/
def recallB : Recall := { NHTSACampaignNumber := "04V074000", Summary := "Headlight wiring" }

/-- Concrete successful VIN decode result. -/
def decodeHonda : DecodeResult :=
  { Manufacturer := some "Honda", PlantCountry := some "UNITED STATES (USA)"
    BodyClass := some "Sedan", EngineHP := some "240", FuelTypePrimary := some "Gasoline" }

/-- Environment where parsing succeeds and the VIN decode sub-call fails
while the recall lookup would succeed. -/
def envDecodeFails : Env :=
  { modelCall := fun _ _ => .ok (some "x")
    jsonParse := fun _ => .ok baseAnalysis
    vinDecode := fun _ => .error { message := some "network error" }
    recallLookup := fun _ _ _ => .ok (some [recallA, recallB]) }

/-- Environment where the VIN decode succeeds and the recall lookup fails. -/
def envRecallFails : Env :=
  { modelCall := fun _ _ => .ok (some "x")
    jsonParse := fun _ => .ok baseAnalysis
    vinDecode := fun _ => .ok decodeHonda
    recallLookup := fun _ _ _ => .error { message := some "network error" } }

/-- Environment where both enrichment sub-calls succeed. -/
def envEnrichOk : Env :=
  { modelCall := fun _ _ => .ok (some "x")
    jsonParse := fun _ => .ok baseAnalysis
    vinDecode := fun _ => .ok decodeHonda
    recallLookup := fun _ _ _ => .ok (some [recallA, recallB]) }

/-- The raw message of a JSON parse failure, as produced by the host. -/
def parseFailMsg : String := "Unexpected token < in JSON at position 0"

/-- Environment whose model call succeeds but whose response fails to parse
as JSON. -/
def envParseFails : Env :=
  { modelCall := fun _ _ => .ok (some "<!DOCTYPE html>")
    jsonParse := fun _ => .error { message := some parseFailMsg }
    vinDecode := fun _ => .error { message := none }
    recallLookup := fun _ _ _ => .error { message := none } }

/-- Unfolding lemma: with no retry budget the result is the single attempt
(reached only at `retryCount ≥ 1`, where the source rethrows anyway). -/
theorem makeRequestAux_zero (env : Env) (url : String) (rc : Nat) :
    makeRequestAux env url 0 rc = attempt env url rc := rfl

/-- Unfolding lemma for a positive retry budget. -/
theorem makeRequestAux_succ (env : Env) (url : String) (b rc : Nat) :
    makeRequestAux env url (b + 1) rc =
      match attempt env url rc with
      | (.ok a, evs) => (.ok a, evs)
      | (.error e, evs) =>
        if rateLimited e = true ∧ rc < 1 then
          let (r, evs2) := makeRequestAux env url b (rc + 1)
          (r, evs ++ retryEvents ++ evs2)
        else (.error e, evs) := rfl

/-- The recursive equation of the source's `makeRequest`: on an error whose
message indicates a rate limit and a first attempt, log, wait, and recurse
with `retryCount + 1`; otherwise rethrow. -/
theorem makeRequest_eq (env : Env) (url : String) (retryCount : Nat) :
    makeRequest env url retryCount =
      match attempt env url retryCount with
      | (.ok a, evs) => (.ok a, evs)
      | (.error e, evs) =>
        if rateLimited e = true ∧ retryCount < 1 then
          let (r, evs2) := makeRequest env url (retryCount + 1)
          (r, evs ++ retryEvents ++ evs2)
        else (.error e, evs) := by
  unfold makeRequest
  rcases h : attempt env url retryCount with ⟨r, evs⟩
  rcases r with e | a
  · by_cases hc : rateLimited e = true ∧ retryCount < 1
    · obtain ⟨hr, hlt⟩ := hc
      have h0 : retryCount = 0 := by omega
      subst h0
      show makeRequestAux env url (0 + 1) 0 = _
      rw [makeRequestAux_succ]
      simp only [h]
    · rcases Nat.eq_zero_or_pos retryCount with h0 | hpos
      · subst h0
        show makeRequestAux env url (0 + 1) 0 = _
        rw [makeRequestAux_succ]
        simp only [h]
      · have h1 : 1 - retryCount = 0 := by omega
        rw [h1, makeRequestAux_zero, h]
        simp only [h]
        rw [if_neg hc]
  · show makeRequestAux env url (1 - retryCount) retryCount = _
    rcases Nat.eq_zero_or_pos retryCount with h0 | hpos
    · subst h0
      show makeRequestAux env url (0 + 1) 0 = _
      rw [makeRequestAux_succ]
      simp only [h]
    · have h1 : 1 - retryCount = 0 := by omega
      rw [h1, makeRequestAux_zero, h]

/-- The enrichment section never invokes the model service. -/
theorem enrichStep_no_modelInvoke (env : Env) (a : CarAnalysis) :
    (enrichStep env a).2.filter isModelInvoke = [] := by
  rcases hv : a.vin with _ | v
  · simp [enrichStep, hv]
  · simp only [enrichStep, hv]
    by_cases hg : (!(v == "") && v.length == 17) = true
    · rw [if_pos hg]
      rcases hd : env.vinDecode v with e | data
      · simp [isModelInvoke]
      · rcases hr : env.recallLookup a.make a.model a.year with e | results
        · simp [isModelInvoke]
        · simp [isModelInvoke]
    · rw [if_neg hg]
      rfl

/-- Every attempt invokes the model service exactly once. -/
theorem attempt_one_invoke (env : Env) (url : String) (i : Nat) :
    countModelInvokes (attempt env url i).2 = 1 := by
  rcases hm : env.modelCall (genRequest url) i with e | t
  · simp [attempt, countModelInvokes, hm, isModelInvoke]
  · rcases t with _ | t
    · simp [attempt, countModelInvokes, hm, isModelInvoke]
    · by_cases ht : (t == "") = true
      · simp [attempt, countModelInvokes, hm, ht, isModelInvoke]
      · rcases hp : env.jsonParse (cleanText t) with e | a
        · simp [attempt, countModelInvokes, hm, ht, hp, isModelInvoke]
        · rcases hE : enrichStep env a with ⟨a2, evs2⟩
          have hno : evs2.filter isModelInvoke = [] := by
            have h := enrichStep_no_modelInvoke env a
            rw [hE] at h
            exact h
          simp [attempt, countModelInvokes, hm, ht, hp, hE, isModelInvoke, hno]

/-- The model service is invoked at most `budget + 1` times by the retry
engine. -/
theorem makeRequestAux_invoke_bound (env : Env) (url : String) :
    ∀ b rc, countModelInvokes (makeRequestAux env url b rc).2 ≤ b + 1 := by
  intro b
  induction b with
  | zero =>
    intro rc
    rw [makeRequestAux_zero]
    exact (attempt_one_invoke env url rc).le
  | succ b ih =>
    intro rc
    rw [makeRequestAux_succ]
    rcases hA : attempt env url rc with ⟨r, evs⟩
    have h1 : countModelInvokes evs = 1 := by
      have h := attempt_one_invoke env url rc
      rw [hA] at h
      exact h
    rcases r with e | a
    · by_cases hc : rateLimited e = true ∧ rc < 1
      · rcases hB : makeRequestAux env url b (rc + 1) with ⟨r2, evs2⟩
        have h2 : countModelInvokes evs2 ≤ b + 1 := by
          have h := ih (rc + 1)
          rw [hB] at h
          exact h
        simp only [if_pos hc, hB]
        simp only [countModelInvokes, List.filter_append, List.length_append] at h1 h2 ⊢
        have h3 : (retryEvents.filter isModelInvoke).length = 0 := rfl
        omega
      · simp only [if_neg hc]
        omega
    · show countModelInvokes evs ≤ b + 1 + 1
      omega

/-- C1.  A rate-limit failure of the model call on the first attempt leads
to the retry log, a fixed 2000 ms suspension, and exactly one retry carrying
the identical request; a rate-limit failure of the second attempt then
propagates as the terminal result with no further model invocation. -/
theorem c1_rate_limit_retry_once (env : Env) (url : String) (e0 e1 : JsError)
    (h0 : env.modelCall (genRequest url) 0 = .error e0)
    (hr0 : rateLimited e0 = true)
    (h1 : env.modelCall (genRequest url) 1 = .error e1)
    (hr1 : rateLimited e1 = true) :
    analyzeCarListing env url =
      (.error e1,
       [.modelInvoke (genRequest url),
        .consoleLog "Rate limit hit, retrying in 2 seconds...",
        .waitMs 2000,
        .modelInvoke (genRequest url)]) := by
  have ha0 : attempt env url 0 = (.error e0, [.modelInvoke (genRequest url)]) := by
    simp [attempt, h0]
  have ha1 : attempt env url 1 = (.error e1, [.modelInvoke (genRequest url)]) := by
    simp [attempt, h1]
  show makeRequestAux env url (0 + 1) 0 = _
  rw [makeRequestAux_succ]
  simp [ha0, ha1, makeRequestAux_zero, hr0, retryEvents]

theorem c1_rate_limit_retry_once_witness :
    envC1.modelCall (genRequest "https://cars.example/listing") 0 =
        .error { message := some "Error: 429 Too Many Requests" }
  ∧ rateLimited { message := some "Error: 429 Too Many Requests" } = true
  ∧ analyzeCarListing envC1 "https://cars.example/listing" =
      (.error { message := some "Error: 429 Too Many Requests" },
       [.modelInvoke (genRequest "https://cars.example/listing"),
        .consoleLog "Rate limit hit, retrying in 2 seconds...",
        .waitMs 2000,
        .modelInvoke (genRequest "https://cars.example/listing")]) :=
  ⟨rfl, by decide,
   c1_rate_limit_retry_once envC1 "https://cars.example/listing" _ _
     rfl (by decide) rfl (by decide)⟩

/-- C7.  An error on the first attempt whose message carries no rate-limit
indication — whatever its class: model failure, empty response, or parse
failure — makes the whole call return that attempt's result unchanged:
no retry, no delay, and exactly one model invocation. -/
theorem c7_non_rate_limit_no_retry (env : Env) (url : String) (e : JsError)
    (hfail : (attempt env url 0).1 = .error e)
    (hnr : rateLimited e = false) :
    analyzeCarListing env url = (.error e, (attempt env url 0).2)
  ∧ countModelInvokes (analyzeCarListing env url).2 = 1 := by
  rcases hA : attempt env url 0 with ⟨r, evs⟩
  rw [hA] at hfail
  simp only at hfail
  subst hfail
  have hres : analyzeCarListing env url = (.error e, evs) := by
    show makeRequestAux env url (0 + 1) 0 = _
    rw [makeRequestAux_succ]
    simp [hA, hnr]
  constructor
  · rw [hres]
  · rw [hres]
    have := attempt_one_invoke env url 0
    rw [hA] at this
    exact this

theorem c7_non_rate_limit_no_retry_witness :
    (attempt envC7 "https://cars.example/listing" 0).1 =
        .error { message := some "Network unreachable" }
  ∧ rateLimited { message := some "Network unreachable" } = false
  ∧ analyzeCarListing envC7 "https://cars.example/listing" =
      (.error { message := some "Network unreachable" },
       (attempt envC7 "https://cars.example/listing" 0).2)
  ∧ countModelInvokes (analyzeCarListing envC7 "https://cars.example/listing").2 = 1 :=
  ⟨rfl, by decide,
   (c7_non_rate_limit_no_retry envC7 "https://cars.example/listing" _ rfl (by decide)).1,
   (c7_non_rate_limit_no_retry envC7 "https://cars.example/listing" _ rfl (by decide)).2⟩

/-- C10.  The retry closure terminates (it is a total function here) and in
every environment the model service is invoked at most twice per
`analyzeCarListing` call. -/
theorem c10_at_most_two_model_invokes (env : Env) (url : String) :
    countModelInvokes (analyzeCarListing env url).2 ≤ 2 := by
  have h := makeRequestAux_invoke_bound env url 1 0
  exact h

/-- A string length of 17 forces the JS truthiness-and-length gate of
geminiService.ts line 97 to pass. -/
theorem vin_gate_true_of_len17 (v : String) (h : v.length = 17) :
    (!(v == "") && v.length == 17) = true := by
  have hne : (v == "") = false := by
    cases hbv : v == ""
    · rfl
    · exfalso
      have hv : v = "" := by
        have := (beq_iff_eq (a := v) (b := "")).mp hbv
        exact this
      rw [hv] at h
      simp at h
  simp [hne, h]

/-- C3.  An enrichment network call (either sub-call) is issued exactly when
the parsed record's `vin` is present with length 17; for an absent `vin` or
any other length no enrichment call is made. -/
theorem c3_enrichment_iff_vin17 (env : Env) (a : CarAnalysis) :
    ((enrichStep env a).2.any isEnrichFetch = true) ↔
      (∃ v, a.vin = some v ∧ v.length = 17) := by
  rcases hv : a.vin with _ | v
  · simp [enrichStep, hv]
  · by_cases h17 : v.length = 17
    · have hg := vin_gate_true_of_len17 v h17
      have hne : ¬(v = "") := by
        intro h
        rw [h] at h17
        simp at h17
      rcases hd : env.vinDecode v with e | data
      · simp [enrichStep, hv, hg, hd, isEnrichFetch, h17, hne]
      · rcases hr : env.recallLookup a.make a.model a.year with e | results
        · simp [enrichStep, hv, hg, hd, hr, isEnrichFetch, h17, hne]
        · simp [enrichStep, hv, hg, hd, hr, isEnrichFetch, h17, hne]
    · have hg : (!(v == "") && v.length == 17) = false := by
        cases hbl : (v.length == 17)
        · simp
        · exfalso
          exact h17 ((beq_iff_eq (a := v.length) (b := 17)).mp hbl)
      simp [enrichStep, hv, hg, h17]

/-- The enrichment section never changes any field other than `vinData`. -/
theorem enrichStep_frame (env : Env) (a : CarAnalysis) :
    { (enrichStep env a).1 with vinData := a.vinData } = a := by
  obtain ⟨m1, m2, yr, pr, mi, lo, co, dr, ds, su, rfs, ps, cn, mc, np, vin, vd⟩ := a
  rcases vin with _ | v
  · rfl
  · show { (enrichStep env _).1 with vinData := vd } = _
    simp only [enrichStep]
    by_cases hg : (!(v == "") && v.length == 17) = true
    · rw [if_pos hg]
      rcases hd : env.vinDecode v with e | data
      · rfl
      · rcases hr : env.recallLookup
            (CarAnalysis.mk m1 m2 yr pr mi lo co dr ds su rfs ps cn mc np
              (some v) vd).make
            (CarAnalysis.mk m1 m2 yr pr mi lo co dr ds su rfs ps cn mc np
              (some v) vd).model
            (CarAnalysis.mk m1 m2 yr pr mi lo co dr ds su rfs ps cn mc np
              (some v) vd).year with e | results
        · rfl
        · rfl
    · rw [if_neg hg]

/-- C4.  With a parsed record carrying a 17-character VIN, a failure of
either enrichment sub-call is absorbed: the analyze call still returns
successfully, and every field of the returned record other than `vinData`
equals its value at the moment parsing completed. -/
theorem c4_enrich_failure_still_ok_frame (env : Env) (url t : String)
    (a : CarAnalysis) (v : String)
    (hm : env.modelCall (genRequest url) 0 = .ok (some t))
    (ht : (t == "") = false)
    (hp : env.jsonParse (cleanText t) = .ok a)
    (hv : a.vin = some v) (h17 : v.length = 17)
    (hfail : env.vinDecode v = .error { message := some "network error" } ∨
      env.recallLookup a.make a.model a.year = .error { message := some "network error" }) :
    ∃ r, (analyzeCarListing env url).1 = .ok r ∧ { r with vinData := a.vinData } = a := by
  have ha : attempt env url 0 =
      (.ok (enrichStep env a).1, .modelInvoke (genRequest url) :: (enrichStep env a).2) := by
    rcases hE : enrichStep env a with ⟨a2, evs2⟩
    simp [attempt, hm, ht, hp, hE]
  refine ⟨(enrichStep env a).1, ?_, enrichStep_frame env a⟩
  show (makeRequestAux env url (0 + 1) 0).1 = _
  rw [makeRequestAux_succ]
  simp [ha]

theorem c4_enrich_failure_still_ok_frame_witness :
    envDecodeFails.modelCall (genRequest "https://cars.example/listing") 0 = .ok (some "x")
  ∧ (("x" : String) == "") = false
  ∧ envDecodeFails.jsonParse (cleanText "x") = .ok baseAnalysis
  ∧ baseAnalysis.vin = some "1HGCM82633A004352"
  ∧ ("1HGCM82633A004352" : String).length = 17
  ∧ envDecodeFails.vinDecode "1HGCM82633A004352" = .error { message := some "network error" }
  ∧ ∃ r, (analyzeCarListing envDecodeFails "https://cars.example/listing").1 = .ok r
       ∧ { r with vinData := baseAnalysis.vinData } = baseAnalysis :=
  ⟨rfl, rfl, rfl, rfl, by decide, rfl,
   c4_enrich_failure_still_ok_frame envDecodeFails "https://cars.example/listing" "x"
     baseAnalysis "1HGCM82633A004352" rfl rfl rfl rfl (by decide) (Or.inl rfl)⟩

/-- C9.  When the VIN decode returns manufacturer "Honda" and the recall
lookup returns two records, the merged `vinData` holds manufacturer
"Honda" and a two-element recall list while keeping whatever
`accidentHistory`/`titleStatus` the model had already supplied. -/
theorem c9_merge_preserves_both_sources (env : Env) (a : CarAnalysis) (v : String)
    (d : DecodeResult) (rs : List Recall)
    (hv : a.vin = some v) (h17 : v.length = 17)
    (hd : env.vinDecode v = .ok d)
    (hman : d.Manufacturer = some "Honda")
    (hr : env.recallLookup a.make a.model a.year = .ok (some rs))
    (h2 : rs.length = 2) :
    ∃ vd, (enrichStep env a).1.vinData = some vd
      ∧ vd.manufacturer = some "Honda"
      ∧ vd.recalls = some rs
      ∧ rs.length = 2
      ∧ vd.accidentHistory = (a.vinData.getD {}).accidentHistory
      ∧ vd.titleStatus = (a.vinData.getD {}).titleStatus := by
  have hg := vin_gate_true_of_len17 v h17
  refine ⟨{ mergeDecode (a.vinData.getD {}) d with recalls := some rs }, ?_, ?_, rfl, h2, rfl, rfl⟩
  · simp only [enrichStep, hv]
    rw [if_pos hg]
    rcases hdv : env.vinDecode v with e | data
    · rw [hdv] at hd
      exact absurd hd (by simp)
    · rw [hdv] at hd
      injection hd with hd'
      subst hd'
      rcases hrv : env.recallLookup a.make a.model a.year with e | results
      · rw [hrv] at hr
        exact absurd hr (by simp)
      · rw [hrv] at hr
        injection hr with hr'
        subst hr'
        rfl
  · simp [mergeDecode, hman]

theorem c9_merge_preserves_both_sources_witness :
    baseAnalysis.vin = some "1HGCM82633A004352"
  ∧ ("1HGCM82633A004352" : String).length = 17
  ∧ envEnrichOk.vinDecode "1HGCM82633A004352" = .ok decodeHonda
  ∧ decodeHonda.Manufacturer = some "Honda"
  ∧ envEnrichOk.recallLookup baseAnalysis.make baseAnalysis.model baseAnalysis.year =
      .ok (some [recallA, recallB])
  ∧ ([recallA, recallB] : List Recall).length = 2
  ∧ ∃ vd, (enrichStep envEnrichOk baseAnalysis).1.vinData = some vd
      ∧ vd.manufacturer = some "Honda"
      ∧ vd.recalls = some [recallA, recallB]
      ∧ ([recallA, recallB] : List Recall).length = 2
      ∧ vd.accidentHistory = (baseAnalysis.vinData.getD {}).accidentHistory
      ∧ vd.titleStatus = (baseAnalysis.vinData.getD {}).titleStatus :=
  ⟨rfl, by decide, rfl, rfl, rfl, rfl,
   c9_merge_preserves_both_sources envEnrichOk baseAnalysis "1HGCM82633A004352"
     decodeHonda [recallA, recallB] rfl (by decide) rfl rfl rfl rfl⟩

/-- C5 counterexample: in `envDecodeFails` the VIN decode fails while the
recall lookup would succeed with two records, yet the recall call is never
issued and nothing is collected — the failure of one call does prevent the
other. -/
theorem c5_counterexample :
    envDecodeFails.vinDecode "1HGCM82633A004352" = .error { message := some "network error" }
  ∧ envDecodeFails.recallLookup "Honda" "Accord" 2003 = .ok (some [recallA, recallB])
  ∧ (enrichStep envDecodeFails baseAnalysis).2.any isRecallFetch = false
  ∧ (enrichStep envDecodeFails baseAnalysis).1 = baseAnalysis := by
  refine ⟨rfl, rfl, ?_, ?_⟩ <;> decide

/-- C5 amended: the two enrichment calls are issued sequentially inside one
error scope.  A recall-lookup failure after a successful decode still leaves
the decode's merged result in the record, but a decode failure prevents the
recall lookup from being issued at all. -/
theorem c5_amended_sequential_dependency (env : Env) (a : CarAnalysis) (v : String)
    (hv : a.vin = some v) (h17 : v.length = 17) :
    (∀ e, env.vinDecode v = .error e →
        (enrichStep env a).2.any isRecallFetch = false)
  ∧ (∀ d e, env.vinDecode v = .ok d →
        env.recallLookup a.make a.model a.year = .error e →
        (enrichStep env a).1.vinData = some (mergeDecode (a.vinData.getD {}) d)) := by
  have hg := vin_gate_true_of_len17 v h17
  constructor
  · intro e he
    simp only [enrichStep, hv]
    rw [if_pos hg, he]
    rfl
  · intro d e hd hr
    simp only [enrichStep, hv]
    rw [if_pos hg, hd, hr]

theorem c5_amended_sequential_dependency_witness :
    baseAnalysis.vin = some "1HGCM82633A004352"
  ∧ ("1HGCM82633A004352" : String).length = 17
  ∧ envDecodeFails.vinDecode "1HGCM82633A004352" = .error { message := some "network error" }
  ∧ (enrichStep envDecodeFails baseAnalysis).2.any isRecallFetch = false :=
  ⟨rfl, by decide, rfl,
   (c5_amended_sequential_dependency envDecodeFails baseAnalysis "1HGCM82633A004352"
      rfl (by decide)).1 { message := some "network error" } rfl⟩

/-- C6 counterexample: with a successful decode (manufacturer "Honda") and a
failing recall lookup, the enrichment attempt fails, yet the returned
record is not the pre-enrichment record — the already-merged decode fields
remain in `vinData`. -/
theorem c6_counterexample :
    envRecallFails.recallLookup "Honda" "Accord" 2003 =
        .error { message := some "network error" }
  ∧ (enrichStep envRecallFails baseAnalysis).1 ≠ baseAnalysis
  ∧ (enrichStep envRecallFails baseAnalysis).1.vinData ≠ baseAnalysis.vinData
  ∧ ((enrichStep envRecallFails baseAnalysis).1.vinData.getD {}).manufacturer =
      some "Honda" := by
  refine ⟨rfl, ?_, ?_, ?_⟩ <;> decide

/-- C6 amended: if the VIN decode itself fails the returned record is
exactly the pre-enrichment record; if the decode succeeds and the recall
lookup fails, the returned record is the pre-enrichment record with
`vinData` replaced by the decode-merged value (partial enrichment is
retained). -/
theorem c6_amended_partial_enrichment (env : Env) (a : CarAnalysis) (v : String)
    (hv : a.vin = some v) (h17 : v.length = 17) :
    (∀ e, env.vinDecode v = .error e → (enrichStep env a).1 = a)
  ∧ (∀ d e, env.vinDecode v = .ok d →
        env.recallLookup a.make a.model a.year = .error e →
        (enrichStep env a).1 =
          { a with vinData := some (mergeDecode (a.vinData.getD {}) d) }) := by
  have hg := vin_gate_true_of_len17 v h17
  constructor
  · intro e he
    simp only [enrichStep, hv]
    rw [if_pos hg, he]
  · intro d e hd hr
    simp only [enrichStep, hv]
    rw [if_pos hg, hd, hr]

theorem c6_amended_partial_enrichment_witness :
    baseAnalysis.vin = some "1HGCM82633A004352"
  ∧ ("1HGCM82633A004352" : String).length = 17
  ∧ envRecallFails.vinDecode "1HGCM82633A004352" = .ok decodeHonda
  ∧ envRecallFails.recallLookup baseAnalysis.make baseAnalysis.model baseAnalysis.year =
      .error { message := some "network error" }
  ∧ (enrichStep envRecallFails baseAnalysis).1 =
      { baseAnalysis with
        vinData := some (mergeDecode (baseAnalysis.vinData.getD {}) decodeHonda) } :=
  ⟨rfl, by decide, rfl, rfl,
   (c6_amended_partial_enrichment envRecallFails baseAnalysis "1HGCM82633A004352"
      rfl (by decide)).2 decodeHonda { message := some "network error" } rfl rfl⟩

/-- C8 counterexample: a parse failure propagates with its raw message, the
user-facing message `handleAnalyze` displays is exactly that raw parse
error (not a distinct generic message), and no console log of the error is
emitted anywhere in the run. -/
theorem c8_counterexample :
    (analyzeCarListing envParseFails "https://cars.example/listing").1 =
        .error { message := some parseFailMsg }
  ∧ displayedError { message := some parseFailMsg } = parseFailMsg
  ∧ (analyzeCarListing envParseFails "https://cars.example/listing").2.any
      isConsoleEvent = false
  ∧ parseFailMsg ≠ genericUserMessage :=
  ⟨rfl, rfl, rfl, by decide⟩

/-- C8 amended: for every pipeline failure whose message is nonempty and
contains neither "429" nor "quota", `handleAnalyze` shows the raw error
message itself to the user; the generic fallback appears only for an absent
or empty message, and no separate internal log of the raw error exists. -/
theorem c8_amended_raw_message_shown (e : JsError) (m : String)
    (hm : e.message = some m)
    (h429 : msgIncludes e "429" = false)
    (hq : msgIncludes e "quota" = false)
    (hne : (m == "") = false) :
    displayedError e = m := by
  simp [displayedError, h429, hq, hm, hne]

theorem c8_amended_raw_message_shown_witness :
    (JsError.mk (some parseFailMsg)).message = some parseFailMsg
  ∧ msgIncludes { message := some parseFailMsg } "429" = false
  ∧ msgIncludes { message := some parseFailMsg } "quota" = false
  ∧ ((parseFailMsg : String) == "") = false
  ∧ displayedError { message := some parseFailMsg } = parseFailMsg :=
  ⟨rfl, by decide, by decide, by decide,
   c8_amended_raw_message_shown { message := some parseFailMsg } parseFailMsg
     rfl (by decide) (by decide) (by decide)⟩

/-! ## Fence stripping: supporting lemmas for C2 -/
/-- A list is a `isPrefixOf`-prefix of itself followed by anything. -/
theorem isPrefixOf_append_self (p r : List Char) : p.isPrefixOf (p ++ r) = true := by
  induction p with
  | nil => cases r <;> rfl
  | cons a as ih => simp [List.isPrefixOf, ih]

/-- `replace` removes the pattern (plus one optional newline) when the
input starts with the pattern. -/
theorem stripOnce_at_start (pat r : List Char) (hne : pat ≠ []) :
    stripOnce pat (pat ++ r) = dropNl r := by
  rcases pat with _ | ⟨p, ps⟩
  · exact absurd rfl hne
  · have hpre : (p :: ps).isPrefixOf ((p :: ps) ++ r) = true :=
      isPrefixOf_append_self (p :: ps) r
    rw [List.cons_append] at hpre
    show stripOnce (p :: ps) (p :: (ps ++ r)) = dropNl r
    simp only [stripOnce]
    rw [if_pos hpre]
    congr 1
    rw [← List.cons_append]
    exact List.drop_left (p :: ps) r

/-- `replace` with a pattern that does not occur leaves the input
unchanged. -/
theorem stripOnce_no_occurrence (pat s : List Char)
    (h : containsSub pat s = false) : stripOnce pat s = s := by
  induction s with
  | nil => rfl
  | cons c cs ih =>
    have h1 : pat.isPrefixOf (c :: cs) = false := by
      cases hx : pat.isPrefixOf (c :: cs)
      · rfl
      · simp [containsSub, hx] at h
    have h2 : containsSub pat cs = false := by
      cases hx : containsSub pat cs
      · rfl
      · simp [containsSub, hx] at h
    simp only [stripOnce, h1]
    simp [ih h2]

/-- The fence marker is a prefix of `cs ++ '\n' :: r` exactly when it is a
prefix of `cs`: a match cannot straddle into the newline. -/
theorem fence_isPrefixOf_append (cs r : List Char) :
    fenceTick.isPrefixOf (cs ++ '\n' :: r) = fenceTick.isPrefixOf cs := by
  have hne : (tickChar == '\n') = false := by decide
  have ht : fenceTick = [tickChar, tickChar, tickChar] := rfl
  rcases cs with _ | ⟨c1, cs1⟩
  · rw [ht]
    simp [List.isPrefixOf, hne]
  · rcases cs1 with _ | ⟨c2, cs2⟩
    · rw [ht]
      simp [List.isPrefixOf, hne]
    · rcases cs2 with _ | ⟨c3, cs3⟩
      · rw [ht]
        simp [List.isPrefixOf, hne]
      · rw [ht]
        simp [List.isPrefixOf]

/-- Stripping the fence marker from `cs ++ "\n```"` when `cs` itself holds
no fence: only the closing fence is removed, leaving the newline. -/
theorem stripOnce_fence_closing (cs : List Char)
    (h : containsSub fenceTick cs = false) :
    stripOnce fenceTick (cs ++ '\n' :: fenceTick) = cs ++ ['\n'] := by
  induction cs with
  | nil => decide
  | cons c cs ih =>
    have h1 : fenceTick.isPrefixOf (c :: cs) = false := by
      cases hx : fenceTick.isPrefixOf (c :: cs)
      · rfl
      · simp [containsSub, hx] at h
    have h2 : containsSub fenceTick cs = false := by
      cases hx : containsSub fenceTick cs
      · rfl
      · simp [containsSub, hx] at h
    have hpre : fenceTick.isPrefixOf (c :: (cs ++ '\n' :: fenceTick)) = false := by
      rw [← List.cons_append, fence_isPrefixOf_append]
      exact h1
    rw [List.cons_append, List.cons_append]
    simp only [stripOnce, hpre]
    simp [ih h2]

/-- If a word followed by a tail is a prefix, the word alone is a prefix. -/
theorem isPrefixOf_of_append_isPrefixOf (p q l : List Char)
    (h : (p ++ q).isPrefixOf l = true) : p.isPrefixOf l = true := by
  induction p generalizing l with
  | nil => cases l <;> rfl
  | cons a as ih =>
    rcases l with _ | ⟨b, bs⟩
    · simp [List.isPrefixOf] at h
    · simp only [List.cons_append, List.isPrefixOf, Bool.and_eq_true] at h ⊢
      exact ⟨h.1, ih bs h.2⟩

/-- No plain fence occurrence implies no tagged-fence occurrence. -/
theorem containsSub_fenceJson_eq_false (s : List Char)
    (h : containsSub fenceTick s = false) : containsSub fenceJson s = false := by
  induction s with
  | nil => rfl
  | cons c cs ih =>
    have h1 : fenceTick.isPrefixOf (c :: cs) = false := by
      cases hx : fenceTick.isPrefixOf (c :: cs)
      · rfl
      · simp [containsSub, hx] at h
    have h2 : containsSub fenceTick cs = false := by
      cases hx : containsSub fenceTick cs
      · rfl
      · simp [containsSub, hx] at h
    have hj : fenceJson.isPrefixOf (c :: cs) = false := by
      cases hx : fenceJson.isPrefixOf (c :: cs)
      · rfl
      · exfalso
        have hb : (fenceTick ++ "json".data).isPrefixOf (c :: cs) = true := hx
        have := isPrefixOf_of_append_isPrefixOf fenceTick ("json".data) (c :: cs) hb
        rw [this] at h1
        cases h1
    simp only [containsSub, hj, Bool.false_or]
    exact ih h2

/-- `dropWhile` never lengthens a list. -/
theorem dropWhile_length_le (p : Char → Bool) (l : List Char) :
    (l.dropWhile p).length ≤ l.length := by
  induction l with
  | nil => simp
  | cons c cs ih =>
    rw [List.dropWhile_cons]
    by_cases h : p c = true
    · simp only [h, if_true]
      exact Nat.le_trans ih (Nat.le_succ _)
    · simp [h]

/-- Trimming `s ++ "\n"` for an already-trimmed `s` gives back `s`. -/
theorem trimChars_append_newline (s : List Char)
    (h1 : s.dropWhile isJsWs = s)
    (h2 : s.reverse.dropWhile isJsWs = s.reverse) :
    trimChars (s ++ ['\n']) = s := by
  rcases s with _ | ⟨c, cs⟩
  · decide
  · have hc : isJsWs c = false := by
      cases hx : isJsWs c
      · rfl
      · exfalso
        rw [List.dropWhile_cons, hx, if_pos rfl] at h1
        have hl := dropWhile_length_le isJsWs cs
        rw [h1] at hl
        simp at hl
    have e1 : List.dropWhile isJsWs ((c :: cs) ++ ['\n']) = (c :: cs) ++ ['\n'] := by
      rw [List.cons_append, List.dropWhile_cons]
      simp [hc]
    have e2 : ((c :: cs) ++ ['\n']).reverse = '\n' :: (c :: cs).reverse := by
      simp
    calc trimChars ((c :: cs) ++ ['\n'])
        = ((((c :: cs) ++ ['\n']).dropWhile isJsWs).reverse.dropWhile isJsWs).reverse := rfl
      _ = ((((c :: cs) ++ ['\n']).reverse).dropWhile isJsWs).reverse := by rw [e1]
      _ = (('\n' :: (c :: cs).reverse).dropWhile isJsWs).reverse := by rw [e2]
      _ = (((c :: cs).reverse).dropWhile isJsWs).reverse := by
            rw [List.dropWhile_cons, show isJsWs '\n' = true from by decide, if_pos rfl]
      _ = ((c :: cs).reverse).reverse := by rw [h2]
      _ = c :: cs := by simp

/-- Fence stripping on a response wrapped as ```` ```json\n<s>\n``` ````
recovers `s` exactly, provided `s` holds no fence marker and is already
trimmed. -/
theorem cleanText_fenced (s : String)
    (hf : containsSub fenceTick s.data = false)
    (h1 : s.data.dropWhile isJsWs = s.data)
    (h2 : s.data.reverse.dropWhile isJsWs = s.data.reverse) :
    cleanText ("```json\n" ++ s ++ "\n```") = s := by
  have hd : ("```json\n" ++ s ++ "\n```").data
      = fenceJson ++ ('\n' :: (s.data ++ '\n' :: fenceTick)) := by
    rw [String.data_append, String.data_append]
    show (fenceJson ++ ['\n']) ++ s.data ++ ('\n' :: fenceTick) = _
    simp [List.append_assoc]
  show (⟨trimChars (stripOnce fenceTick (stripOnce fenceJson
      ("```json\n" ++ s ++ "\n```").data))⟩ : String) = s
  rw [hd]
  rw [stripOnce_at_start fenceJson _ (by decide)]
  rw [show dropNl ('\n' :: (s.data ++ '\n' :: fenceTick)) = s.data ++ '\n' :: fenceTick
      from by simp [dropNl]]
  rw [stripOnce_fence_closing s.data hf]
  rw [trimChars_append_newline s.data h1 h2]

/-- C2 amended: for a serialization `s` containing no fence marker and
carrying no leading/trailing whitespace, wrapping in a ```` ```json ````
fence and cleaning recovers `s` verbatim, so parsing yields the identical
object as parsing `s` directly. -/
theorem c2_amended_fenced_parse_identical (s : String)
    (hf : containsSub fenceTick s.data = false)
    (h1 : s.data.dropWhile isJsWs = s.data)
    (h2 : s.data.reverse.dropWhile isJsWs = s.data.reverse) :
    cleanText ("```json\n" ++ s ++ "\n```") = s
  ∧ jsonParseStr (cleanText ("```json\n" ++ s ++ "\n```")) = jsonParseStr s := by
  have h := cleanText_fenced s hf h1 h2
  exact ⟨h, by rw [h]⟩

theorem c2_amended_fenced_parse_identical_witness :
    containsSub fenceTick ("\x7b\"make\":\"Toyota\"\x7d" : String).data = false
  ∧ ("\x7b\"make\":\"Toyota\"\x7d" : String).data.dropWhile isJsWs =
      ("\x7b\"make\":\"Toyota\"\x7d" : String).data
  ∧ ("\x7b\"make\":\"Toyota\"\x7d" : String).data.reverse.dropWhile isJsWs =
      ("\x7b\"make\":\"Toyota\"\x7d" : String).data.reverse
  ∧ (cleanText ("```json\n" ++ "\x7b\"make\":\"Toyota\"\x7d" ++ "\n```") =
      "\x7b\"make\":\"Toyota\"\x7d"
    ∧ jsonParseStr (cleanText ("```json\n" ++ "\x7b\"make\":\"Toyota\"\x7d" ++ "\n```")) =
        jsonParseStr "\x7b\"make\":\"Toyota\"\x7d") :=
  ⟨by decide, by decide, by decide,
   c2_amended_fenced_parse_identical "\x7b\"make\":\"Toyota\"\x7d"
     (by decide) (by decide) (by decide)⟩

/-- C2 counterexample: the same object wrapped in a *plain* (untagged)
markdown code fence.  The first `replace` finds no ```` ```json ````, the
second removes only the opening ```` ``` ````, the closing fence survives
`trim`, and the cleaned text no longer parses — while the unwrapped text
parses fine.  Parsing does not yield the identical object for every
fence-wrapped response. -/
theorem c2_counterexample :
    cleanText "```\n\x7b\"a\":1\x7d\n```" ≠ "\x7b\"a\":1\x7d"
  ∧ cleanText "\x7b\"a\":1\x7d" = "\x7b\"a\":1\x7d"
  ∧ jsonParseStr (cleanText "```\n\x7b\"a\":1\x7d\n```") = none
  ∧ jsonParseStr "\x7b\"a\":1\x7d" = some (Json.jobj [("a", Json.jnum 1)]) :=
  ⟨by decide, by decide, rfl, rfl⟩
